import Mathlib

/-!
# Calendar page: event filter and view/navigation controller

A shallow embedding of `src/pages/dashboard/CalendarPage.js`:

* `applyFilter` (lines 354-372), the pure narrowing of the event list by
  colour tag and by date range;
* the navigation handlers `handleClickToday`, `handleChangeView`,
  `handleClickDatePrev`, `handleClickDateNext` and the responsive effect
  (lines 81-145), as transitions of the page state over an abstract
  rendering engine;
* `handleCreateUpdateEvent` and `handleDeleteEvent` (lines 201-221), as
  producers of an effect trace;
* `handleFilterEventColor` (lines 223-229), as a function from the current
  colour selection and the clicked colour to the new selection.

JavaScript arrays are `List`s, `null` is `none`, and the number returned by
`fTimestamp` is an `Option Int` in which `none` stands for `NaN`.
-/

namespace CalendarPage

/-! ## Data model -/

/-- One calendar event, as read by the page: the filter looks at `textColor`,
`start` and `end` only.  `D` is the type of the date values stored in the
event (`end_` is the field `end`). -/
structure CalendarEvent (D : Type) where
  id : String
  title : String
  allDay : Bool
  textColor : String
  start : D
  end_ : D
  deriving DecidableEq, Repr

/-- A JavaScript number as produced by `fTimestamp`: `none` is `NaN`. -/
abbrev JsNumber := Option Int

/-- JavaScript `a >= b` on numbers: false as soon as one side is `NaN`. -/
def jsGe : JsNumber → JsNumber → Bool
  | some a, some b => decide (b ≤ a)
  | _, _ => false

/-- JavaScript `a <= b` on numbers: false as soon as one side is `NaN`. -/
def jsLe : JsNumber → JsNumber → Bool
  | some a, some b => decide (a ≤ b)
  | _, _ => false

/-! ## `applyFilter` -/

/-- `inputData.map((el, index) => [el, index])`. -/
def stabilizedThis {α : Type} (inputData : List α) : List (α × Nat) :=
  inputData.enum.map (fun p => (p.2, p.1))

/-- The callback of the colour filter:
`(event) => filterEventColor.includes(event.textColor)`. -/
def colorCallback {D : Type} (filterEventColor : List String) (event : CalendarEvent D) : Bool :=
  filterEventColor.contains event.textColor

/-- The callback of the date filter:
`fTimestamp(event.start) >= fTimestamp(filterStartDate) &&
 fTimestamp(event.end) <= fTimestamp(filterEndDate)`. -/
def dateCallback {D : Type} (fTimestamp : D → JsNumber) (filterStartDate filterEndDate : D)
    (event : CalendarEvent D) : Bool :=
  jsGe (fTimestamp event.start) (fTimestamp filterStartDate) &&
    jsLe (fTimestamp event.end_) (fTimestamp filterEndDate)

/-- `applyFilter({ inputData, filterEventColor, filterStartDate, filterEndDate, isError })`.
The helper `fTimestamp` of `utils/formatTime` is a parameter; the two date
bounds come from the date-range picker, which holds `null` (`none`) or a
`Date` object (always truthy). -/
def applyFilter {D : Type} (fTimestamp : D → JsNumber) (inputData : List (CalendarEvent D))
    (filterEventColor : List String) (filterStartDate filterEndDate : Option D)
    (isError : Bool) : List (CalendarEvent D) :=
  let stabilized := stabilizedThis inputData
  let inputData1 := stabilized.map (fun el => el.1)
  let inputData2 :=
    if filterEventColor.length ≠ 0 then
      inputData1.filter (colorCallback filterEventColor)
    else inputData1
  match filterStartDate, filterEndDate, isError with
  | some s, some e, false => inputData2.filter (dateCallback fTimestamp s e)
  | _, _, _ => inputData2

/-- The date predicate of the filter as a whole: the date callback when both
bounds are present and `isError` is false, and `true` otherwise. -/
def passesDate {D : Type} (fTimestamp : D → JsNumber) (filterStartDate filterEndDate : Option D)
    (isError : Bool) (event : CalendarEvent D) : Bool :=
  match filterStartDate, filterEndDate, isError with
  | some s, some e, false => dateCallback fTimestamp s e event
  | _, _, _ => true

/-- The colour predicate of the filter as a whole: the colour callback when a
colour is selected, and `true` otherwise. -/
def passesColor {D : Type} (filterEventColor : List String) (event : CalendarEvent D) : Bool :=
  if filterEventColor.length ≠ 0 then colorCallback filterEventColor event else true

/-! ## Sample data (the scenarios of the specification) -/

/-- Timestamps of the sample data are epoch values in minutes. -/
def sampleTimestamp (d : Int) : JsNumber := some d

/-- Event 1 of the scenarios: colour `#00AB55`, from `T0 = 0` to `T0 + 1h`. -/
def event1 : CalendarEvent Int :=
  { id := "1", title := "one", allDay := false, textColor := "#00AB55", start := 0, end_ := 60 }

/-- Event 2 of the scenarios: colour `#1890FF`, from `T0 + 2h` to `T0 + 3h`. -/
def event2 : CalendarEvent Int :=
  { id := "2", title := "two", allDay := false, textColor := "#1890FF", start := 120, end_ := 180 }

/-! ## View/navigation controller -/

/-- The rendering engine as the page sees it: the object returned by
`calendarEl.getApi()`, over an engine state `σ` and date values `D`.
`init` is the construction of the widget from its `initialDate` and
`initialView` props, `viewType` is the engine's active view; the other
fields are the calls made by the handlers.  The engine is an external
library and is a parameter of the model. -/
structure CalendarApi (σ D : Type) where
  init : D → String → σ
  today : σ → σ
  prev : σ → σ
  next : σ → σ
  changeView : String → σ → σ
  getDate : σ → D
  viewType : σ → String

/-- A call made on the engine's API object. -/
inductive ApiCall where
  | today
  | prev
  | next
  | changeView (viewName : String)
  | getDate
  deriving DecidableEq, Repr

/-- The page state read and written by the navigation code: the `date` and
`view` hooks, the `isDesktop` flag, `calendarRef.current` (`none` for `null`,
otherwise the engine with its current state), and the calls made on the
engine so far. -/
structure PageState (σ D : Type) where
  date : D
  view : String
  isDesktop : Bool
  calendarRef : Option σ
  calls : List ApiCall

/-- `isDesktop ? 'dayGridMonth' : 'listWeek'`. -/
def defaultView (isDesktop : Bool) : String :=
  if isDesktop then "dayGridMonth" else "listWeek"

/-- `handleClickToday`. -/
def handleClickToday {σ D : Type} (api : CalendarApi σ D) (p : PageState σ D) : PageState σ D :=
  match p.calendarRef with
  | some calendarEl =>
    let el1 := api.today calendarEl
    { p with calendarRef := some el1, date := api.getDate el1,
             calls := p.calls ++ [ApiCall.today, ApiCall.getDate] }
  | none => p

/-- `handleChangeView(newView)`. -/
def handleChangeView {σ D : Type} (api : CalendarApi σ D) (newView : String)
    (p : PageState σ D) : PageState σ D :=
  match p.calendarRef with
  | some calendarEl =>
    { p with calendarRef := some (api.changeView newView calendarEl), view := newView,
             calls := p.calls ++ [ApiCall.changeView newView] }
  | none => p

/-- `handleClickDatePrev`. -/
def handleClickDatePrev {σ D : Type} (api : CalendarApi σ D) (p : PageState σ D) : PageState σ D :=
  match p.calendarRef with
  | some calendarEl =>
    let el1 := api.prev calendarEl
    { p with calendarRef := some el1, date := api.getDate el1,
             calls := p.calls ++ [ApiCall.prev, ApiCall.getDate] }
  | none => p

/-- `handleClickDateNext`. -/
def handleClickDateNext {σ D : Type} (api : CalendarApi σ D) (p : PageState σ D) : PageState σ D :=
  match p.calendarRef with
  | some calendarEl =>
    let el1 := api.next calendarEl
    { p with calendarRef := some el1, date := api.getDate el1,
             calls := p.calls ++ [ApiCall.next, ApiCall.getDate] }
  | none => p

/-- The body of the effect that depends on `isDesktop` (lines 93-101). -/
def responsiveEffect {σ D : Type} (api : CalendarApi σ D) (p : PageState σ D) : PageState σ D :=
  match p.calendarRef with
  | some calendarEl =>
    let newView := defaultView p.isDesktop
    { p with calendarRef := some (api.changeView newView calendarEl), view := newView,
             calls := p.calls ++ [ApiCall.changeView newView] }
  | none => p

/-- The breakpoint flag takes the value `isDesktop`: the effect runs when the
value differs from the one of the previous render (its dependency list is
`[isDesktop]`). -/
def onBreakpoint {σ D : Type} (api : CalendarApi σ D) (isDesktop : Bool)
    (p : PageState σ D) : PageState σ D :=
  if isDesktop = p.isDesktop then p
  else responsiveEffect api { p with isDesktop := isDesktop }

/-- The hooks of the first render: `useState(new Date())`,
`useState(isDesktop ? 'dayGridMonth' : 'listWeek')`, `useRef(null)`. -/
def firstRender {σ D : Type} (now : D) (isDesktop : Bool) : PageState σ D :=
  { date := now, view := defaultView isDesktop, isDesktop := isDesktop,
    calendarRef := none, calls := [] }

/-- Page initialisation: the widget is created with `initialDate={date}` and
`initialView={view}`, the ref is attached, and the effect runs once. -/
def mount {σ D : Type} (api : CalendarApi σ D) (now : D) (isDesktop : Bool) : PageState σ D :=
  let p : PageState σ D := firstRender now isDesktop
  responsiveEffect api { p with calendarRef := some (api.init p.date p.view) }

/-- The navigation commands of the toolbar and the breakpoint flip. -/
inductive NavCommand where
  | clickToday
  | clickDatePrev
  | clickDateNext
  | changeView (newView : String)
  | breakpoint (isDesktop : Bool)
  deriving DecidableEq, Repr

/-- One navigation command, run to completion. -/
def navStep {σ D : Type} (api : CalendarApi σ D) (p : PageState σ D) :
    NavCommand → PageState σ D
  | NavCommand.clickToday => handleClickToday api p
  | NavCommand.clickDatePrev => handleClickDatePrev api p
  | NavCommand.clickDateNext => handleClickDateNext api p
  | NavCommand.changeView v => handleChangeView api v p
  | NavCommand.breakpoint b => onBreakpoint api b p

/-- A sequence of navigation commands, each run to completion in turn. -/
def navRun {σ D : Type} (api : CalendarApi σ D) (cmds : List NavCommand)
    (p : PageState σ D) : PageState σ D :=
  cmds.foldl (navStep api) p

/-- The commands after which the page reads `getDate()` back: today, prev
and next.  The others, `handleChangeView` and the breakpoint flip, are the
view commands. -/
def isDateCommand : NavCommand → Bool
  | NavCommand.clickToday => true
  | NavCommand.clickDatePrev => true
  | NavCommand.clickDateNext => true
  | NavCommand.changeView _ => false
  | NavCommand.breakpoint _ => false

/-- The view asked for by the last `changeView` call of a list of calls. -/
def lastChangeView (calls : List ApiCall) : Option String :=
  calls.foldl
    (fun acc call =>
      match call with
      | ApiCall.changeView viewName => some viewName
      | _ => acc)
    none

/-- Length in days of one step of `prev`/`next` in the sample engine. -/
def sampleUnit (viewName : String) : Int :=
  if viewName = "dayGridMonth" then 30
  else if viewName = "timeGridDay" then 1
  else 7

/-- A sample engine: its state is the focused date (a day number) and the
active view; "today" is day 20000. -/
def sampleApi : CalendarApi (Int × String) Int where
  init d v := (d, v)
  today s := (20000, s.2)
  prev s := (s.1 - sampleUnit s.2, s.2)
  next s := (s.1 + sampleUnit s.2, s.2)
  changeView v s := (s.1, v)
  getDate s := s.1
  viewType s := s.2

/-- The sample engine, except that its focused date keeps only the whole
thousands of the `initialDate` it is given (a widget that drops the
milliseconds of its initial date). -/
def truncatingApi : CalendarApi (Int × String) Int :=
  { sampleApi with init := fun d v => (d / 1000 * 1000, v) }

/-- A page state without engine handle. -/
def samplePageNoEngine : PageState (Int × String) Int :=
  { date := 19000, view := "timeGridWeek", isDesktop := true, calendarRef := none, calls := [] }

/-- A page state with a live engine handle. -/
def samplePageLive : PageState (Int × String) Int :=
  { date := 19000, view := "timeGridWeek", isDesktop := true,
    calendarRef := some (19000, "timeGridWeek"), calls := [] }

/-! ## Create, update and delete handlers -/

/-- The store actions dispatched by the handlers; `Ev` is the type of the
form's event payload. -/
inductive CalendarAction (Ev : Type) where
  | updateEvent (eventId : String) (newEvent : Ev)
  | createEvent (newEvent : Ev)
  | deleteEvent (eventId : String)
  | onCloseModal
  deriving DecidableEq, Repr

/-- What a handler does, in order. -/
inductive Effect (Ev : Type) where
  | dispatch (action : CalendarAction Ev)
  | enqueueSnackbar (message : String)
  | consoleError (error : String)
  deriving DecidableEq, Repr

/-- JavaScript truthiness of `selectedEventId`: `null` and the empty string
are falsy. -/
def truthyId : Option String → Option String
  | some eventId => if eventId = "" then none else some eventId
  | none => none

/-- `handleCreateUpdateEvent(newEvent)`.  `dispatch` is the store's dispatch,
which returns or throws; the result is the effects performed and whether the
handler returned or threw. -/
def handleCreateUpdateEvent {Ev : Type} (dispatch : CalendarAction Ev → Except String Unit)
    (selectedEventId : Option String) (newEvent : Ev) : List (Effect Ev) × Except String Unit :=
  match truthyId selectedEventId with
  | some eventId =>
    match dispatch (CalendarAction.updateEvent eventId newEvent) with
    | Except.error err => ([Effect.dispatch (CalendarAction.updateEvent eventId newEvent)], Except.error err)
    | Except.ok _ =>
      ([Effect.dispatch (CalendarAction.updateEvent eventId newEvent),
        Effect.enqueueSnackbar "Update success!"], Except.ok ())
  | none =>
    match dispatch (CalendarAction.createEvent newEvent) with
    | Except.error err => ([Effect.dispatch (CalendarAction.createEvent newEvent)], Except.error err)
    | Except.ok _ =>
      ([Effect.dispatch (CalendarAction.createEvent newEvent),
        Effect.enqueueSnackbar "Create success!"], Except.ok ())

/-- `handleDeleteEvent()`: the body runs inside `try`, and `catch` logs the
error; `handleCloseModal()` is `dispatch(onCloseModal())`. -/
def handleDeleteEvent {Ev : Type} (dispatch : CalendarAction Ev → Except String Unit)
    (selectedEventId : Option String) : List (Effect Ev) × Except String Unit :=
  match truthyId selectedEventId with
  | some eventId =>
    match dispatch (CalendarAction.deleteEvent eventId) with
    | Except.error err =>
      ([Effect.dispatch (CalendarAction.deleteEvent eventId), Effect.consoleError err], Except.ok ())
    | Except.ok _ =>
      match dispatch CalendarAction.onCloseModal with
      | Except.error err =>
        ([Effect.dispatch (CalendarAction.deleteEvent eventId),
          Effect.dispatch CalendarAction.onCloseModal, Effect.consoleError err], Except.ok ())
      | Except.ok _ =>
        ([Effect.dispatch (CalendarAction.deleteEvent eventId),
          Effect.dispatch CalendarAction.onCloseModal,
          Effect.enqueueSnackbar "Delete success!"], Except.ok ())
  | none => ([], Except.ok ())

/-- How a remote operation ends. -/
inductive RemoteOutcome where
  | succeeded
  | failed (error : String)
  deriving DecidableEq, Repr

/-- Modelled from the spec: the store's `dispatch` of `redux/store` and the
thunks of `redux/slices/calendar`, which are not among the sources.  Section 5:
remote operations are "asynchronous and non-blocking — the initiating call
returns immediately", and their completion, success or failure, "is delivered
via a callback-style continuation that later updates shared state".  So the
call returns normally whatever the outcome `remote action` will be. -/
def storeDispatch {Ev : Type} (_remote : CalendarAction Ev → RemoteOutcome)
    (_action : CalendarAction Ev) : Except String Unit :=
  Except.ok ()

/-- The messages shown to the user by a handler run. -/
def notifications {Ev : Type} (effects : List (Effect Ev)) : List String :=
  effects.filterMap (fun eff =>
    match eff with
    | Effect.enqueueSnackbar message => some message
    | _ => none)

/-- A remote side on which every operation fails. -/
def remoteDown (_action : CalendarAction String) : RemoteOutcome :=
  RemoteOutcome.failed "Network Error"

/-- A store whose `dispatch` throws. -/
def throwingDispatch (_action : CalendarAction String) : Except String Unit :=
  Except.error "store error"

/-! ## Colour selection of the filter drawer -/

/-- The initial colour selection: `useState([])`. -/
def initialFilterEventColor : List String := []

/-- `handleFilterEventColor(eventColor)`, as the new value given to
`setFilterEventColor` from the current selection `filterEventColor`. -/
def handleFilterEventColor (filterEventColor : List String) (eventColor : String) : List String :=
  if filterEventColor.contains eventColor then
    filterEventColor.filter (fun value => value != eventColor)
  else filterEventColor ++ [eventColor]

/-- The two ways the page sets the colour selection: a click on a colour
(`onFilterEventColor`) and the reset button (`onResetFilter`, which calls
`setFilterEventColor([])`). -/
inductive FilterCommand where
  | toggle (eventColor : String)
  | reset
  deriving DecidableEq, Repr

/-- One command on the colour selection. -/
def filterStep (filterEventColor : List String) : FilterCommand → List String
  | FilterCommand.toggle eventColor => handleFilterEventColor filterEventColor eventColor
  | FilterCommand.reset => []

/-- A sequence of commands on the colour selection, from a given selection. -/
def filterRun (cmds : List FilterCommand) (filterEventColor : List String) : List String :=
  cmds.foldl filterStep filterEventColor

/-! ## Basic facts about `applyFilter` -/

theorem stabilizedThis_map_fst {α : Type} (l : List α) :
    (stabilizedThis l).map (fun el => el.1) = l := by
  unfold stabilizedThis
  rw [List.map_map]
  have h : ((fun el : α × Nat => el.1) ∘ fun p : Nat × α => (p.2, p.1)) = Prod.snd := by
    funext p; rfl
  rw [h, List.enum_map_snd]

theorem applyFilter_eq_filter {D : Type} (fTimestamp : D → JsNumber)
    (E : List (CalendarEvent D)) (C : List String) (s e : Option D) (isError : Bool) :
    applyFilter fTimestamp E C s e isError =
      E.filter (fun ev => passesColor C ev && passesDate fTimestamp s e isError ev) := by
  unfold applyFilter
  simp only [stabilizedThis_map_fst]
  by_cases hC : C.length ≠ 0
  · rcases s with _ | s <;> rcases e with _ | e <;> rcases isError with _ | _ <;>
      simp [passesColor, passesDate, hC, List.filter_filter, Bool.and_comm]
  · rcases s with _ | s <;> rcases e with _ | e <;> rcases isError with _ | _ <;>
      simp [passesColor, passesDate, hC]

theorem mem_applyFilter_iff {D : Type} (fTimestamp : D → JsNumber)
    (E : List (CalendarEvent D)) (C : List String) (s e : Option D) (isError : Bool)
    (ev : CalendarEvent D) :
    ev ∈ applyFilter fTimestamp E C s e isError ↔
      ev ∈ E ∧ passesColor C ev = true ∧ passesDate fTimestamp s e isError ev = true := by
  rw [applyFilter_eq_filter, List.mem_filter, Bool.and_eq_true]

theorem passesColor_of_ne_nil {D : Type} (C : List String) (hC : C ≠ [])
    (ev : CalendarEvent D) : passesColor C ev = true ↔ ev.textColor ∈ C := by
  have hlen : C.length ≠ 0 := fun h => hC (List.length_eq_zero.mp h)
  simp [passesColor, colorCallback, hlen]

theorem count_applyFilter_of_pass {D : Type} [DecidableEq D] (fTimestamp : D → JsNumber)
    (E : List (CalendarEvent D)) (C : List String) (s e : Option D) (isError : Bool)
    (ev : CalendarEvent D) (hc : passesColor C ev = true)
    (hd : passesDate fTimestamp s e isError ev = true) :
    List.count ev (applyFilter fTimestamp E C s e isError) = List.count ev E := by
  rw [applyFilter_eq_filter]
  apply List.count_filter
  simp [hc, hd]

theorem applyFilter_no_date {D : Type} (fTimestamp : D → JsNumber)
    (E : List (CalendarEvent D)) (C : List String) (s e : Option D) (isError : Bool)
    (h : s = none ∨ e = none ∨ isError = true) :
    applyFilter fTimestamp E C s e isError = E.filter (passesColor C) := by
  rw [applyFilter_eq_filter]
  congr 1
  funext ev
  rcases s with _ | s <;> rcases e with _ | e <;> rcases isError with _ | _ <;>
    simp_all [passesDate]

/-! ## The event filter: claims C1 to C6 -/

/-- C1: with a non-empty colour selection `C`, `applyFilter` returns exactly
the events of `E` whose `textColor` is in `C` and that pass the date
predicate: the result is `E` filtered by that conjunction, every event of the
result has its colour in `C`, an event is in the result exactly when it is in
`E`, has its colour in `C` and passes the date predicate, and every such event
occurs in the result as many times as in `E`.  On the scenario of the
specification the result is `[event1]`. -/
theorem applyFilter_color_exact {D : Type} [DecidableEq D] (fTimestamp : D → JsNumber)
    (E : List (CalendarEvent D)) (C : List String) (s e : Option D) (isError : Bool)
    (hC : C ≠ []) :
    applyFilter fTimestamp E C s e isError =
        E.filter (fun ev => decide (ev.textColor ∈ C) && passesDate fTimestamp s e isError ev)
      ∧ (∀ ev ∈ applyFilter fTimestamp E C s e isError, ev.textColor ∈ C)
      ∧ (∀ ev, ev ∈ applyFilter fTimestamp E C s e isError ↔
            ev ∈ E ∧ ev.textColor ∈ C ∧ passesDate fTimestamp s e isError ev = true)
      ∧ (∀ ev, ev.textColor ∈ C → passesDate fTimestamp s e isError ev = true →
            List.count ev (applyFilter fTimestamp E C s e isError) = List.count ev E)
      ∧ applyFilter sampleTimestamp [event1, event2] ["#00AB55"] none none false = [event1] := by
  refine ⟨?_, ?_, ?_, ?_, ?_⟩
  · rw [applyFilter_eq_filter]
    congr 1
    funext ev
    have h := passesColor_of_ne_nil C hC ev
    by_cases hm : ev.textColor ∈ C
    · simp [hm, h.mpr hm]
    · have hf : passesColor C ev = false := by
        cases hp : passesColor C ev
        · rfl
        · exact absurd (h.mp hp) hm
      simp [hm, hf]
  · intro ev hev
    exact (passesColor_of_ne_nil C hC ev).mp ((mem_applyFilter_iff _ _ _ _ _ _ _).mp hev).2.1
  · intro ev
    rw [mem_applyFilter_iff, passesColor_of_ne_nil C hC]
  · intro ev hc hd
    exact count_applyFilter_of_pass _ _ _ _ _ _ _ ((passesColor_of_ne_nil C hC ev).mpr hc) hd
  · decide

/-- Witness of C1 on the scenario of the specification. -/
theorem applyFilter_color_exact_witness :
    (["#00AB55"] : List String) ≠ [] ∧
      ∀ ev ∈ applyFilter sampleTimestamp [event1, event2] ["#00AB55"] none none false,
        ev.textColor ∈ ["#00AB55"] :=
  ⟨by decide,
   (applyFilter_color_exact sampleTimestamp [event1, event2] ["#00AB55"] none none false
      (by decide)).2.1⟩

/-- C2: with both bounds present and `isError` false, every event of the
result satisfies `fTimestamp(start) >= fTimestamp(filterStartDate)` and
`fTimestamp(end) <= fTimestamp(filterEndDate)`; every colour-passing event of
`E` satisfying both is kept, as many times as it occurs in `E`; on numeric
timestamps the two comparisons are `≤` on integers, so that equality at either
bound keeps the event; with only one bound present the result is the one
without bounds.  On the scenario of the specification the result is
`[event1]`. -/
theorem applyFilter_date_bounds {D : Type} [DecidableEq D] (fTimestamp : D → JsNumber)
    (E : List (CalendarEvent D)) (C : List String) (s e : D) (isError : Bool) :
    (∀ ev ∈ applyFilter fTimestamp E C (some s) (some e) false,
        jsGe (fTimestamp ev.start) (fTimestamp s) = true ∧
          jsLe (fTimestamp ev.end_) (fTimestamp e) = true)
      ∧ (∀ ev ∈ E, passesColor C ev = true →
          jsGe (fTimestamp ev.start) (fTimestamp s) = true →
          jsLe (fTimestamp ev.end_) (fTimestamp e) = true →
          ev ∈ applyFilter fTimestamp E C (some s) (some e) false ∧
            List.count ev (applyFilter fTimestamp E C (some s) (some e) false) = List.count ev E)
      ∧ (∀ ev ∈ E, passesColor C ev = true → ∀ a b c d : Int,
          fTimestamp ev.start = some a → fTimestamp s = some b →
          fTimestamp ev.end_ = some c → fTimestamp e = some d →
          (ev ∈ applyFilter fTimestamp E C (some s) (some e) false ↔ b ≤ a ∧ c ≤ d))
      ∧ applyFilter fTimestamp E C (some s) none isError = applyFilter fTimestamp E C none none isError
      ∧ applyFilter fTimestamp E C none (some e) isError = applyFilter fTimestamp E C none none isError
      ∧ applyFilter sampleTimestamp [event1, event2] [] (some 0) (some 90) false = [event1] := by
  refine ⟨?_, ?_, ?_, ?_, ?_, ?_⟩
  · intro ev hev
    have h := ((mem_applyFilter_iff _ _ _ _ _ _ _).mp hev).2.2
    simpa [passesDate, dateCallback] using h
  · intro ev hE hc hs he
    have hd : passesDate fTimestamp (some s) (some e) false ev = true := by
      simp [passesDate, dateCallback, hs, he]
    exact ⟨(mem_applyFilter_iff _ _ _ _ _ _ _).mpr ⟨hE, hc, hd⟩,
      count_applyFilter_of_pass _ _ _ _ _ _ _ hc hd⟩
  · intro ev hE hc a b c d ha hb hc' hd
    rw [mem_applyFilter_iff]
    simp [passesDate, dateCallback, ha, hb, hc', hd, jsGe, jsLe, hE, hc]
  · rw [applyFilter_no_date _ _ _ _ _ _ (Or.inr (Or.inl rfl)),
      applyFilter_no_date _ _ _ _ _ _ (Or.inl rfl)]
  · rw [applyFilter_no_date _ _ _ _ _ _ (Or.inl rfl),
      applyFilter_no_date _ _ _ _ _ _ (Or.inl rfl)]
  · decide

/-- Witness of C2: event 1 starts exactly at the start bound `T0` and ends
exactly at the end bound `T0 + 1h`, and is kept. -/
theorem applyFilter_date_bounds_witness :
    event1 ∈ [event1, event2] ∧ passesColor [] event1 = true ∧
      (event1 ∈ applyFilter sampleTimestamp [event1, event2] [] (some 0) (some 60) false ↔
        (0 : Int) ≤ 0 ∧ (60 : Int) ≤ 60) :=
  ⟨by decide, by decide,
   (applyFilter_date_bounds sampleTimestamp [event1, event2] [] 0 60 false).2.2.1
      event1 (by decide) (by decide) 0 0 60 60 rfl rfl rfl rfl⟩

/-- C3: when `isError` is true no date filtering is applied, whatever the
bounds: the result is the result without bounds (with either value of
`isError`), which is the colour-filtered list. -/
theorem applyFilter_isError_skips_dates {D : Type} (fTimestamp : D → JsNumber)
    (E : List (CalendarEvent D)) (C : List String) (s e : Option D) (isError : Bool) :
    applyFilter fTimestamp E C s e true = applyFilter fTimestamp E C none none isError
      ∧ applyFilter fTimestamp E C s e true = E.filter (passesColor C) := by
  constructor
  · rw [applyFilter_no_date _ _ _ _ _ _ (Or.inr (Or.inr rfl)),
      applyFilter_no_date _ _ _ _ _ _ (Or.inl rfl)]
  · exact applyFilter_no_date _ _ _ _ _ _ (Or.inr (Or.inr rfl))

/-- C4: with an empty colour selection and no date bounds `applyFilter`
returns its input unchanged (hence the same length). -/
theorem applyFilter_empty_criteria {D : Type} (fTimestamp : D → JsNumber)
    (E : List (CalendarEvent D)) (isError : Bool) :
    applyFilter fTimestamp E [] none none isError = E
      ∧ (applyFilter fTimestamp E [] none none isError).length = E.length := by
  have h : applyFilter fTimestamp E [] none none isError = E := by
    rw [applyFilter_no_date _ _ _ _ _ _ (Or.inl rfl)]
    simp [passesColor]
  exact ⟨h, by rw [h]⟩

/-- C5: `applyFilter` is idempotent for fixed criteria. -/
theorem applyFilter_idempotent {D : Type} (fTimestamp : D → JsNumber)
    (E : List (CalendarEvent D)) (C : List String) (s e : Option D) (isError : Bool) :
    applyFilter fTimestamp (applyFilter fTimestamp E C s e isError) C s e isError =
      applyFilter fTimestamp E C s e isError := by
  rw [applyFilter_eq_filter fTimestamp (applyFilter fTimestamp E C s e isError),
    applyFilter_eq_filter fTimestamp E, List.filter_filter]
  congr 1
  funext ev
  simp

/-- C6: the result of `applyFilter` is a sublist of its input: it is obtained
by deleting elements, so the kept events stand in the order they have in `E`,
every event of the result is an event of `E`, and no event occurs more often
in the result than in `E`. -/
theorem applyFilter_sublist {D : Type} [DecidableEq D] (fTimestamp : D → JsNumber)
    (E : List (CalendarEvent D)) (C : List String) (s e : Option D) (isError : Bool) :
    List.Sublist (applyFilter fTimestamp E C s e isError) E
      ∧ (∀ ev ∈ applyFilter fTimestamp E C s e isError, ev ∈ E)
      ∧ (∀ ev, List.count ev (applyFilter fTimestamp E C s e isError) ≤ List.count ev E) := by
  have h : List.Sublist (applyFilter fTimestamp E C s e isError) E := by
    rw [applyFilter_eq_filter]
    exact List.filter_sublist E
  exact ⟨h, fun ev hev => h.subset hev, fun ev => h.count_le ev⟩

/-! ## The view/navigation controller: claims C7, C9, C10 -/

theorem navStep_live {σ D : Type} (api : CalendarApi σ D) (p : PageState σ D)
    (cmd : NavCommand) (hp : p.calendarRef.isSome = true) :
    (navStep api p cmd).calendarRef.isSome = true := by
  cases href : p.calendarRef with
  | none => simp [href] at hp
  | some el =>
    cases cmd with
    | clickToday => simp [navStep, handleClickToday, href]
    | clickDatePrev => simp [navStep, handleClickDatePrev, href]
    | clickDateNext => simp [navStep, handleClickDateNext, href]
    | changeView v => simp [navStep, handleChangeView, href]
    | breakpoint b =>
      by_cases hb : b = p.isDesktop
      · simp [navStep, onBreakpoint, hb, href]
      · simp [navStep, onBreakpoint, hb, responsiveEffect, href]

theorem navRun_live {σ D : Type} (api : CalendarApi σ D) (cmds : List NavCommand)
    (p : PageState σ D) (hp : p.calendarRef.isSome = true) :
    (navRun api cmds p).calendarRef.isSome = true := by
  induction cmds generalizing p with
  | nil => exact hp
  | cons cmd rest ih =>
    simp only [navRun, List.foldl_cons]
    exact ih _ (navStep_live api p cmd hp)

theorem mount_live {σ D : Type} (api : CalendarApi σ D) (now : D) (isDesktop : Bool) :
    (mount api now isDesktop).calendarRef.isSome = true := by
  simp [mount, responsiveEffect, firstRender]

theorem navRun_append {σ D : Type} (api : CalendarApi σ D) (xs ys : List NavCommand)
    (p : PageState σ D) : navRun api (xs ++ ys) p = navRun api ys (navRun api xs p) := by
  simp [navRun, List.foldl_append]

theorem navStep_date_readback {σ D : Type} (api : CalendarApi σ D) (p : PageState σ D)
    (cmd : NavCommand) (hp : p.calendarRef.isSome = true) (hcmd : isDateCommand cmd = true) :
    ∃ calendarEl, (navStep api p cmd).calendarRef = some calendarEl ∧
      (navStep api p cmd).date = api.getDate calendarEl := by
  cases href : p.calendarRef with
  | none => simp [href] at hp
  | some el =>
    cases cmd with
    | clickToday => exact ⟨api.today el, by simp [navStep, handleClickToday, href]⟩
    | clickDatePrev => exact ⟨api.prev el, by simp [navStep, handleClickDatePrev, href]⟩
    | clickDateNext => exact ⟨api.next el, by simp [navStep, handleClickDateNext, href]⟩
    | changeView v => simp [isDateCommand] at hcmd
    | breakpoint b => simp [isDateCommand] at hcmd

theorem navStep_view_date {σ D : Type} (api : CalendarApi σ D) (p : PageState σ D)
    (cmd : NavCommand) (hcmd : isDateCommand cmd = false) :
    (navStep api p cmd).date = p.date := by
  cases cmd with
  | clickToday => simp [isDateCommand] at hcmd
  | clickDatePrev => simp [isDateCommand] at hcmd
  | clickDateNext => simp [isDateCommand] at hcmd
  | changeView v =>
    cases href : p.calendarRef <;> simp [navStep, handleChangeView, href]
  | breakpoint b =>
    by_cases hb : b = p.isDesktop
    · simp [navStep, onBreakpoint, hb]
    · cases href : p.calendarRef <;> simp [navStep, onBreakpoint, hb, responsiveEffect, href]

theorem navRun_view_date {σ D : Type} (api : CalendarApi σ D) (cmds : List NavCommand)
    (p : PageState σ D) (hcmds : ∀ c ∈ cmds, isDateCommand c = false) :
    (navRun api cmds p).date = p.date := by
  induction cmds generalizing p with
  | nil => rfl
  | cons cmd rest ih =>
    simp only [navRun, List.foldl_cons]
    have h1 := ih (navStep api p cmd) (fun c hc => hcmds c (List.mem_cons_of_mem _ hc))
    simp only [navRun] at h1
    rw [h1, navStep_view_date api p cmd (hcmds cmd (List.mem_cons_self _ _))]

theorem navStep_view_dateMirror {σ D : Type} (api : CalendarApi σ D)
    (hkeep : ∀ v s, api.getDate (api.changeView v s) = api.getDate s)
    (p : PageState σ D) (cmd : NavCommand) (hcmd : isDateCommand cmd = false)
    (hp : ∃ calendarEl, p.calendarRef = some calendarEl ∧ p.date = api.getDate calendarEl) :
    ∃ calendarEl, (navStep api p cmd).calendarRef = some calendarEl ∧
      (navStep api p cmd).date = api.getDate calendarEl := by
  obtain ⟨el, href, hd⟩ := hp
  cases cmd with
  | clickToday => simp [isDateCommand] at hcmd
  | clickDatePrev => simp [isDateCommand] at hcmd
  | clickDateNext => simp [isDateCommand] at hcmd
  | changeView v =>
    exact ⟨api.changeView v el, by simp [navStep, handleChangeView, href, hkeep, hd]⟩
  | breakpoint b =>
    by_cases hb : b = p.isDesktop
    · exact ⟨el, by simp [navStep, onBreakpoint, hb, href, hd]⟩
    · exact ⟨api.changeView (defaultView b) el,
        by simp [navStep, onBreakpoint, hb, responsiveEffect, href, hkeep, hd]⟩

theorem navRun_view_dateMirror {σ D : Type} (api : CalendarApi σ D)
    (hkeep : ∀ v s, api.getDate (api.changeView v s) = api.getDate s)
    (cmds : List NavCommand) (p : PageState σ D)
    (hcmds : ∀ c ∈ cmds, isDateCommand c = false)
    (hp : ∃ calendarEl, p.calendarRef = some calendarEl ∧ p.date = api.getDate calendarEl) :
    ∃ calendarEl, (navRun api cmds p).calendarRef = some calendarEl ∧
      (navRun api cmds p).date = api.getDate calendarEl := by
  induction cmds generalizing p with
  | nil => exact hp
  | cons cmd rest ih =>
    simp only [navRun, List.foldl_cons]
    exact ih (navStep api p cmd) (fun c hc => hcmds c (List.mem_cons_of_mem _ hc))
      (navStep_view_dateMirror api hkeep p cmd (hcmds cmd (List.mem_cons_self _ _)) hp)

theorem lastChangeView_append_changeView (calls : List ApiCall) (v : String) :
    lastChangeView (calls ++ [ApiCall.changeView v]) = some v := by
  simp [lastChangeView, List.foldl_append]

theorem lastChangeView_navStep {σ D : Type} (api : CalendarApi σ D) (p : PageState σ D)
    (cmd : NavCommand) (hp : lastChangeView p.calls = some p.view) :
    lastChangeView (navStep api p cmd).calls = some (navStep api p cmd).view := by
  cases href : p.calendarRef with
  | none =>
    cases cmd with
    | clickToday => simpa [navStep, handleClickToday, href] using hp
    | clickDatePrev => simpa [navStep, handleClickDatePrev, href] using hp
    | clickDateNext => simpa [navStep, handleClickDateNext, href] using hp
    | changeView v => simpa [navStep, handleChangeView, href] using hp
    | breakpoint b =>
      by_cases hb : b = p.isDesktop
      · simpa [navStep, onBreakpoint, hb] using hp
      · simpa [navStep, onBreakpoint, hb, responsiveEffect, href] using hp
  | some el =>
    cases cmd with
    | clickToday =>
      simpa [navStep, handleClickToday, href, lastChangeView, List.foldl_append] using hp
    | clickDatePrev =>
      simpa [navStep, handleClickDatePrev, href, lastChangeView, List.foldl_append] using hp
    | clickDateNext =>
      simpa [navStep, handleClickDateNext, href, lastChangeView, List.foldl_append] using hp
    | changeView v =>
      simp [navStep, handleChangeView, href, lastChangeView_append_changeView]
    | breakpoint b =>
      by_cases hb : b = p.isDesktop
      · simpa [navStep, onBreakpoint, hb] using hp
      · simp [navStep, onBreakpoint, hb, responsiveEffect, href,
          lastChangeView_append_changeView]

theorem lastChangeView_navRun {σ D : Type} (api : CalendarApi σ D) (cmds : List NavCommand)
    (p : PageState σ D) (hp : lastChangeView p.calls = some p.view) :
    lastChangeView (navRun api cmds p).calls = some (navRun api cmds p).view := by
  induction cmds generalizing p with
  | nil => exact hp
  | cons cmd rest ih =>
    simp only [navRun, List.foldl_cons]
    exact ih _ (lastChangeView_navStep api p cmd hp)

theorem lastChangeView_mount {σ D : Type} (api : CalendarApi σ D) (now : D)
    (isDesktop : Bool) :
    lastChangeView (mount api now isDesktop).calls = some (mount api now isDesktop).view := by
  simp [mount, responsiveEffect, firstRender, lastChangeView]

theorem viewMirror_navStep {σ D : Type} (api : CalendarApi σ D)
    (hview : ∀ v s, api.viewType (api.changeView v s) = v)
    (htoday : ∀ s, api.viewType (api.today s) = api.viewType s)
    (hprev : ∀ s, api.viewType (api.prev s) = api.viewType s)
    (hnext : ∀ s, api.viewType (api.next s) = api.viewType s)
    (p : PageState σ D) (cmd : NavCommand)
    (hp : ∃ calendarEl, p.calendarRef = some calendarEl ∧ p.view = api.viewType calendarEl) :
    ∃ calendarEl, (navStep api p cmd).calendarRef = some calendarEl ∧
      (navStep api p cmd).view = api.viewType calendarEl := by
  obtain ⟨el, href, hv⟩ := hp
  cases cmd with
  | clickToday => exact ⟨api.today el, by simp [navStep, handleClickToday, href, htoday, hv]⟩
  | clickDatePrev => exact ⟨api.prev el, by simp [navStep, handleClickDatePrev, href, hprev, hv]⟩
  | clickDateNext => exact ⟨api.next el, by simp [navStep, handleClickDateNext, href, hnext, hv]⟩
  | changeView v =>
    exact ⟨api.changeView v el, by simp [navStep, handleChangeView, href, hview]⟩
  | breakpoint b =>
    by_cases hb : b = p.isDesktop
    · exact ⟨el, by simp [navStep, onBreakpoint, hb, href, hv]⟩
    · exact ⟨api.changeView (defaultView b) el,
        by simp [navStep, onBreakpoint, hb, responsiveEffect, href, hview]⟩

theorem viewMirror_navRun {σ D : Type} (api : CalendarApi σ D)
    (hview : ∀ v s, api.viewType (api.changeView v s) = v)
    (htoday : ∀ s, api.viewType (api.today s) = api.viewType s)
    (hprev : ∀ s, api.viewType (api.prev s) = api.viewType s)
    (hnext : ∀ s, api.viewType (api.next s) = api.viewType s)
    (cmds : List NavCommand) (p : PageState σ D)
    (hp : ∃ calendarEl, p.calendarRef = some calendarEl ∧ p.view = api.viewType calendarEl) :
    ∃ calendarEl, (navRun api cmds p).calendarRef = some calendarEl ∧
      (navRun api cmds p).view = api.viewType calendarEl := by
  induction cmds generalizing p with
  | nil => exact hp
  | cons cmd rest ih =>
    simp only [navRun, List.foldl_cons]
    exact ih _ (viewMirror_navStep api hview htoday hprev hnext p cmd hp)

theorem viewMirror_mount {σ D : Type} (api : CalendarApi σ D)
    (hview : ∀ v s, api.viewType (api.changeView v s) = v) (now : D) (isDesktop : Bool) :
    ∃ calendarEl, (mount api now isDesktop).calendarRef = some calendarEl ∧
      (mount api now isDesktop).view = api.viewType calendarEl :=
  ⟨api.changeView (defaultView isDesktop) (api.init now (defaultView isDesktop)),
    by simp [mount, responsiveEffect, firstRender, hview]⟩

theorem mount_date {σ D : Type} (api : CalendarApi σ D) (now : D) (isDesktop : Bool) :
    (mount api now isDesktop).date = now := by
  simp [mount, responsiveEffect, firstRender]


/-- C7, as stated, fails: over an engine whose focused date drops the
milliseconds of the `initialDate` it is given, the page is initialised at
date 1738 and the user selects `timeGridWeek`; the local date is still 1738,
the engine's `getDate()` is 1000.  The local view and the engine's view agree,
and after `handleClickDateNext` the date is read back and agrees too. -/
theorem local_date_diverges_from_engine :
    (mount truncatingApi 1738 true).date = 1738
      ∧ (mount truncatingApi 1738 true).calendarRef = some (1000, "dayGridMonth")
      ∧ (navRun truncatingApi [NavCommand.changeView "timeGridWeek"]
          (mount truncatingApi 1738 true)).date = 1738
      ∧ (navRun truncatingApi [NavCommand.changeView "timeGridWeek"]
          (mount truncatingApi 1738 true)).view = "timeGridWeek"
      ∧ (navRun truncatingApi [NavCommand.changeView "timeGridWeek"]
          (mount truncatingApi 1738 true)).calendarRef = some (1000, "timeGridWeek")
      ∧ truncatingApi.getDate (1000, "timeGridWeek") = 1000
      ∧ truncatingApi.viewType (1000, "timeGridWeek") = "timeGridWeek"
      ∧ (navRun truncatingApi [NavCommand.changeView "timeGridWeek"]
          (mount truncatingApi 1738 true)).date ≠ truncatingApi.getDate (1000, "timeGridWeek")
      ∧ (navRun truncatingApi [NavCommand.changeView "timeGridWeek", NavCommand.clickDateNext]
          (mount truncatingApi 1738 true)).date = 1007
      ∧ (navRun truncatingApi [NavCommand.changeView "timeGridWeek", NavCommand.clickDateNext]
          (mount truncatingApi 1738 true)).calendarRef = some (1007, "timeGridWeek") := by
  decide

/-- C7, amended: the page reads `getDate()` back after today, prev and next
only, and sets `view` to the view it asks the engine for.  For every run
`cmds` from page initialisation, every date command `dateCmd` (today, prev or
next) and every list `viewCmds` of view commands (`handleChangeView`,
breakpoint flips):

* right after `dateCmd` the handle is live and the local `date` is the
  engine's `getDate()`;
* the view commands that follow leave the local `date` as it was read back,
  and with no date command at all the local `date` is the initial one
  (`new Date()`, the `initialDate` handed to the engine);
* after `cmds` the local `view` is the view asked for by the last
  `changeView` call made on the engine;
* for an engine whose `changeView` switches to the view asked for and whose
  `today`, `prev`, `next` keep the view, after `cmds` the local `view` is the
  engine's active view;
* for an engine whose `changeView` keeps the focused date, after
  `cmds`, `dateCmd` and `viewCmds` the local `date` is the engine's
  `getDate()`. -/
theorem viewState_follows_commands {σ D : Type} (api : CalendarApi σ D)
    (now : D) (isDesktop : Bool) (cmds viewCmds : List NavCommand) (dateCmd : NavCommand)
    (hdate : isDateCommand dateCmd = true)
    (hviews : ∀ c ∈ viewCmds, isDateCommand c = false) :
    (∃ calendarEl,
        (navRun api (cmds ++ [dateCmd]) (mount api now isDesktop)).calendarRef = some calendarEl ∧
        (navRun api (cmds ++ [dateCmd]) (mount api now isDesktop)).date
          = api.getDate calendarEl)
      ∧ (navRun api (cmds ++ dateCmd :: viewCmds) (mount api now isDesktop)).date
          = (navRun api (cmds ++ [dateCmd]) (mount api now isDesktop)).date
      ∧ (navRun api viewCmds (mount api now isDesktop)).date = now
      ∧ lastChangeView (navRun api cmds (mount api now isDesktop)).calls
          = some (navRun api cmds (mount api now isDesktop)).view
      ∧ ((∀ v s, api.viewType (api.changeView v s) = v) →
          (∀ s, api.viewType (api.today s) = api.viewType s) →
          (∀ s, api.viewType (api.prev s) = api.viewType s) →
          (∀ s, api.viewType (api.next s) = api.viewType s) →
          ∃ calendarEl,
            (navRun api cmds (mount api now isDesktop)).calendarRef = some calendarEl ∧
            (navRun api cmds (mount api now isDesktop)).view = api.viewType calendarEl)
      ∧ ((∀ v s, api.getDate (api.changeView v s) = api.getDate s) →
          ∃ calendarEl,
            (navRun api (cmds ++ dateCmd :: viewCmds) (mount api now isDesktop)).calendarRef
              = some calendarEl ∧
            (navRun api (cmds ++ dateCmd :: viewCmds) (mount api now isDesktop)).date
              = api.getDate calendarEl) := by
  have hlive := navRun_live api cmds _ (mount_live api now isDesktop)
  have hread : ∃ calendarEl,
      (navRun api (cmds ++ [dateCmd]) (mount api now isDesktop)).calendarRef = some calendarEl ∧
      (navRun api (cmds ++ [dateCmd]) (mount api now isDesktop)).date
        = api.getDate calendarEl := by
    rw [navRun_append]
    exact navStep_date_readback api _ dateCmd hlive hdate
  have hsplit : navRun api (cmds ++ dateCmd :: viewCmds) (mount api now isDesktop)
      = navRun api viewCmds (navRun api (cmds ++ [dateCmd]) (mount api now isDesktop)) := by
    rw [← navRun_append, List.append_assoc, List.singleton_append]
  refine ⟨hread, ?_, ?_, ?_, ?_, ?_⟩
  · rw [hsplit]
    exact navRun_view_date api viewCmds _ hviews
  · rw [navRun_view_date api viewCmds _ hviews, mount_date]
  · exact lastChangeView_navRun api cmds _ (lastChangeView_mount api now isDesktop)
  · intro hview htoday hprev hnext
    exact viewMirror_navRun api hview htoday hprev hnext cmds _
      (viewMirror_mount api hview now isDesktop)
  · intro hkeep
    rw [hsplit]
    exact navRun_view_dateMirror api hkeep viewCmds _ hviews hread

/-- Witness of amended C7 on the engine that drops milliseconds: the user
selects `timeGridWeek`, steps to the next week, the breakpoint flips to narrow
and the user selects `timeGridDay`; the local date is the engine's. -/
theorem viewState_follows_commands_witness :
    isDateCommand NavCommand.clickDateNext = true
      ∧ (∀ c ∈ [NavCommand.breakpoint false, NavCommand.changeView "timeGridDay"],
          isDateCommand c = false)
      ∧ (∀ v s, truncatingApi.getDate (truncatingApi.changeView v s) = truncatingApi.getDate s)
      ∧ ∃ calendarEl,
          (navRun truncatingApi
              ([NavCommand.changeView "timeGridWeek"] ++
                NavCommand.clickDateNext ::
                  [NavCommand.breakpoint false, NavCommand.changeView "timeGridDay"])
              (mount truncatingApi 1738 true)).calendarRef = some calendarEl ∧
          (navRun truncatingApi
              ([NavCommand.changeView "timeGridWeek"] ++
                NavCommand.clickDateNext ::
                  [NavCommand.breakpoint false, NavCommand.changeView "timeGridDay"])
              (mount truncatingApi 1738 true)).date = truncatingApi.getDate calendarEl :=
  ⟨rfl, by decide, fun _ _ => rfl,
   (viewState_follows_commands truncatingApi 1738 true
      [NavCommand.changeView "timeGridWeek"]
      [NavCommand.breakpoint false, NavCommand.changeView "timeGridDay"]
      NavCommand.clickDateNext rfl (by decide)).2.2.2.2.2 (fun _ _ => rfl)⟩

/-- C9: without engine handle (`calendarRef.current` is `null`) each of
`handleClickDateNext`, `handleClickDatePrev`, `handleClickToday` and
`handleChangeView(mode)`, for every mode, returns the page state it was given:
date, view and the list of calls made on the engine are unchanged. -/
theorem navigation_noop_without_engine {σ D : Type} (api : CalendarApi σ D)
    (p : PageState σ D) (h : p.calendarRef = none) :
    handleClickDateNext api p = p ∧ handleClickDatePrev api p = p ∧
      handleClickToday api p = p ∧ (∀ mode, handleChangeView api mode p = p) ∧
      (handleClickDateNext api p).calls = p.calls ∧ (handleClickDatePrev api p).calls = p.calls ∧
      (handleClickToday api p).calls = p.calls ∧
      (∀ mode, (handleChangeView api mode p).date = p.date ∧
        (handleChangeView api mode p).view = p.view ∧
        (handleChangeView api mode p).calls = p.calls) := by
  simp [handleClickDateNext, handleClickDatePrev, handleClickToday, handleChangeView, h]

/-- Witness of C9 on a page state without engine. -/
theorem navigation_noop_without_engine_witness :
    samplePageNoEngine.calendarRef = none ∧
      (handleClickDateNext sampleApi samplePageNoEngine).date = 19000 ∧
      (handleClickDateNext sampleApi samplePageNoEngine).view = "timeGridWeek" ∧
      (handleClickDateNext sampleApi samplePageNoEngine).calls = [] :=
  ⟨rfl, by
    rw [(navigation_noop_without_engine sampleApi samplePageNoEngine rfl).1]
    exact ⟨rfl, rfl, rfl⟩⟩

/-- C10: against a live engine handle `handleChangeView(m)` leaves `view` equal
to `m` whatever it was before, leaves `date` unchanged, and makes exactly one
call on the engine, `changeView(m)`, so that the handle holds the engine after
that command. -/
theorem handleChangeView_live {σ D : Type} (api : CalendarApi σ D) (m : String)
    (p : PageState σ D) (calendarEl : σ) (h : p.calendarRef = some calendarEl) :
    (handleChangeView api m p).view = m ∧
      (handleChangeView api m p).date = p.date ∧
      (handleChangeView api m p).calendarRef = some (api.changeView m calendarEl) ∧
      (handleChangeView api m p).calls = p.calls ++ [ApiCall.changeView m] := by
  simp [handleChangeView, h]

/-- Witness of C10: `handleChangeView("listWeek")` on a page showing
`timeGridWeek`. -/
theorem handleChangeView_live_witness :
    samplePageLive.calendarRef = some (19000, "timeGridWeek") ∧
      (handleChangeView sampleApi "listWeek" samplePageLive).view = "listWeek" ∧
      (handleChangeView sampleApi "listWeek" samplePageLive).date = 19000 ∧
      (handleChangeView sampleApi "listWeek" samplePageLive).calendarRef =
        some (19000, "listWeek") ∧
      (handleChangeView sampleApi "listWeek" samplePageLive).calls =
        [ApiCall.changeView "listWeek"] :=
  ⟨rfl, handleChangeView_live sampleApi "listWeek" samplePageLive (19000, "timeGridWeek") rfl⟩

/-! ## Create, update and delete handlers: claim C8 -/

/-- C8, evaluated on the code: with the store's asynchronous dispatch and a
remote side on which every operation fails, `handleCreateUpdateEvent` shows
"Create success!" (no event selected) and "Update success!" (event "7"
selected), and `handleDeleteEvent` shows "Delete success!" and logs nothing;
its `catch` branch is reached only when `dispatch` itself throws, and then the
error is logged and no success notification is shown. -/
theorem success_shown_on_remote_failure :
    remoteDown (CalendarAction.createEvent "meeting") = RemoteOutcome.failed "Network Error" ∧
      notifications (handleCreateUpdateEvent (storeDispatch remoteDown) none "meeting").1 =
        ["Create success!"] ∧
      remoteDown (CalendarAction.updateEvent "7" "meeting") = RemoteOutcome.failed "Network Error" ∧
      notifications (handleCreateUpdateEvent (storeDispatch remoteDown) (some "7") "meeting").1 =
        ["Update success!"] ∧
      remoteDown (CalendarAction.deleteEvent "7") = RemoteOutcome.failed "Network Error" ∧
      (handleDeleteEvent (storeDispatch remoteDown) (some "7")).1 =
        [Effect.dispatch (CalendarAction.deleteEvent "7"),
         Effect.dispatch CalendarAction.onCloseModal,
         Effect.enqueueSnackbar "Delete success!"] ∧
      (handleDeleteEvent throwingDispatch (some "7")).1 =
        [Effect.dispatch (CalendarAction.deleteEvent "7"),
         Effect.consoleError "store error"] := by
  refine ⟨rfl, ?_, rfl, ?_, rfl, ?_, ?_⟩ <;> decide

/-! ## The responsive effect: claim C11 -/

theorem onBreakpoint_live {σ D : Type} (api : CalendarApi σ D) (b : Bool)
    (p : PageState σ D) (calendarEl : σ) (href : p.calendarRef = some calendarEl)
    (hflip : b ≠ p.isDesktop) :
    onBreakpoint api b p =
      { p with isDesktop := b, calendarRef := some (api.changeView (defaultView b) calendarEl),
               view := defaultView b,
               calls := p.calls ++ [ApiCall.changeView (defaultView b)] } := by
  simp [onBreakpoint, hflip, responsiveEffect, href]

/-- C11: in every state reached from page initialisation by navigation
commands, a change of the breakpoint flag to `b` forces the default view of
the new width: the local `view` becomes `defaultView b`, the engine receives
exactly one call, `changeView(defaultView b)`, and, for an engine whose
`changeView` switches to the view asked for, the engine's active view is
`defaultView b`; the default is `listWeek` for narrow and `dayGridMonth` for
wide.  The prior view plays no part: the same holds in any page state with a
live engine handle, whatever its `view`. -/
theorem breakpoint_forces_default_view {σ D : Type} (api : CalendarApi σ D)
    (hview : ∀ v s, api.viewType (api.changeView v s) = v)
    (now : D) (isDesktop : Bool) (cmds : List NavCommand) (b : Bool)
    (hflip : b ≠ (navRun api cmds (mount api now isDesktop)).isDesktop) :
    (onBreakpoint api b (navRun api cmds (mount api now isDesktop))).view = defaultView b
      ∧ (∃ calendarEl,
          (onBreakpoint api b (navRun api cmds (mount api now isDesktop))).calendarRef
            = some calendarEl ∧ api.viewType calendarEl = defaultView b)
      ∧ (onBreakpoint api b (navRun api cmds (mount api now isDesktop))).calls
          = (navRun api cmds (mount api now isDesktop)).calls
              ++ [ApiCall.changeView (defaultView b)]
      ∧ (∀ (p : PageState σ D) (calendarEl : σ), p.calendarRef = some calendarEl →
          b ≠ p.isDesktop →
          (onBreakpoint api b p).view = defaultView b ∧
            (onBreakpoint api b p).calendarRef
              = some (api.changeView (defaultView b) calendarEl) ∧
            api.viewType (api.changeView (defaultView b) calendarEl) = defaultView b)
      ∧ defaultView false = "listWeek" ∧ defaultView true = "dayGridMonth" := by
  have hlive := navRun_live api cmds _ (mount_live api now isDesktop)
  refine ⟨?_, ?_, ?_, ?_, rfl, rfl⟩
  · cases h0 : (navRun api cmds (mount api now isDesktop)).calendarRef with
    | none => simp [h0] at hlive
    | some el0 => rw [onBreakpoint_live api b _ _ h0 hflip]
  · cases h0 : (navRun api cmds (mount api now isDesktop)).calendarRef with
    | none => simp [h0] at hlive
    | some el0 =>
      rw [onBreakpoint_live api b _ _ h0 hflip]
      exact ⟨_, rfl, hview _ _⟩
  · cases h0 : (navRun api cmds (mount api now isDesktop)).calendarRef with
    | none => simp [h0] at hlive
    | some el0 => rw [onBreakpoint_live api b _ _ h0 hflip]
  · intro p el href hne
    rw [onBreakpoint_live api b p el href hne]
    exact ⟨rfl, rfl, hview _ _⟩

/-- Witness of C11: the page starts wide, the user steps to the next month and
selects `timeGridWeek`, and the flag flips to narrow. -/
theorem breakpoint_forces_default_view_witness :
    (false ≠ (navRun sampleApi [NavCommand.clickDateNext, NavCommand.changeView "timeGridWeek"]
        (mount sampleApi 19000 true)).isDesktop)
      ∧ (navRun sampleApi [NavCommand.clickDateNext, NavCommand.changeView "timeGridWeek"]
          (mount sampleApi 19000 true)).view = "timeGridWeek"
      ∧ (onBreakpoint sampleApi false
          (navRun sampleApi [NavCommand.clickDateNext, NavCommand.changeView "timeGridWeek"]
            (mount sampleApi 19000 true))).view = defaultView false :=
  ⟨by decide, by decide,
   (breakpoint_forces_default_view sampleApi (fun _ _ => rfl) 19000 true
      [NavCommand.clickDateNext, NavCommand.changeView "timeGridWeek"] false (by decide)).1⟩

/-! ## The colour selection: claim C12 -/

theorem handleFilterEventColor_of_mem (S : List String) (c : String) (h : c ∈ S) :
    handleFilterEventColor S c = S.filter (fun value => value != c) := by
  simp [handleFilterEventColor, h]

theorem handleFilterEventColor_of_not_mem (S : List String) (c : String) (h : c ∉ S) :
    handleFilterEventColor S c = S ++ [c] := by
  simp [handleFilterEventColor, h]

theorem filter_bne_of_not_mem (S : List String) (c : String) (h : c ∉ S) :
    S.filter (fun value => value != c) = S := by
  rw [List.filter_eq_self]
  intro x hx
  have hne : x ≠ c := fun hxc => h (hxc ▸ hx)
  simpa using hne

theorem mem_handleFilterEventColor (S : List String) (c x : String) :
    x ∈ handleFilterEventColor S c ↔ (x ∈ S ∧ x ≠ c) ∨ (x = c ∧ c ∉ S) := by
  by_cases h : c ∈ S
  · rw [handleFilterEventColor_of_mem S c h]
    simp [List.mem_filter, h]
  · rw [handleFilterEventColor_of_not_mem S c h]
    simp only [List.mem_append, List.mem_singleton]
    constructor
    · rintro (hx | hx)
      · exact Or.inl ⟨hx, fun hxc => h (hxc ▸ hx)⟩
      · exact Or.inr ⟨hx, h⟩
    · rintro (⟨hx, _⟩ | ⟨hx, _⟩)
      · exact Or.inl hx
      · exact Or.inr hx

theorem nodup_handleFilterEventColor (S : List String) (c : String) (hS : S.Nodup) :
    (handleFilterEventColor S c).Nodup := by
  by_cases h : c ∈ S
  · rw [handleFilterEventColor_of_mem S c h]
    exact hS.filter _
  · rw [handleFilterEventColor_of_not_mem S c h]
    rw [List.nodup_append]
    refine ⟨hS, List.nodup_singleton c, ?_⟩
    intro x hx hx'
    rw [List.mem_singleton] at hx'
    exact h (hx' ▸ hx)

theorem nodup_filterRun (cmds : List FilterCommand) (S : List String) (hS : S.Nodup) :
    (filterRun cmds S).Nodup := by
  induction cmds generalizing S with
  | nil => exact hS
  | cons cmd rest ih =>
    simp only [filterRun, List.foldl_cons]
    cases cmd with
    | toggle c => exact ih _ (nodup_handleFilterEventColor S c hS)
    | reset => exact ih _ List.nodup_nil

theorem handleFilterEventColor_twice_perm (S : List String) (c : String) (hS : S.Nodup) :
    List.Perm (handleFilterEventColor (handleFilterEventColor S c) c) S := by
  by_cases h : c ∈ S
  · have h1 : c ∉ handleFilterEventColor S c := by
      rw [mem_handleFilterEventColor]
      rintro (⟨_, hne⟩ | ⟨_, hn⟩)
      · exact hne rfl
      · exact hn h
    rw [handleFilterEventColor_of_not_mem _ c h1, handleFilterEventColor_of_mem S c h]
    have he : S.filter (fun value => value != c) = S.erase c := by
      rw [hS.erase_eq_filter c]
    rw [he]
    exact (List.perm_append_singleton c (S.erase c)).trans (List.perm_cons_erase h).symm
  · have h1 : c ∈ handleFilterEventColor S c := by
      rw [mem_handleFilterEventColor]
      exact Or.inr ⟨rfl, h⟩
    rw [handleFilterEventColor_of_mem _ c h1, handleFilterEventColor_of_not_mem S c h]
    simp [List.filter_append, filter_bne_of_not_mem S c h]

/-- C12: for a duplicate-free selection `S` and a colour `c`,
`handleFilterEventColor` toggles `c`: the new selection contains `c` exactly
when `S` did not; every other colour is selected afterwards exactly when it
was before, and the other colours stand in the same order (the two selections
agree once `c` is filtered out); the new selection is duplicate-free; toggling
`c` twice gives a selection with the same members as `S`, indeed a permutation
of `S`; and every selection reached from the initial empty selection by
toggles and resets is duplicate-free. -/
theorem handleFilterEventColor_toggle (S : List String) (c : String) (hS : S.Nodup)
    (cmds : List FilterCommand) :
    (c ∈ handleFilterEventColor S c ↔ c ∉ S)
      ∧ (∀ x, x ≠ c → (x ∈ handleFilterEventColor S c ↔ x ∈ S))
      ∧ (handleFilterEventColor S c).filter (fun value => value != c)
          = S.filter (fun value => value != c)
      ∧ (handleFilterEventColor S c).Nodup
      ∧ (∀ x, x ∈ handleFilterEventColor (handleFilterEventColor S c) c ↔ x ∈ S)
      ∧ List.Perm (handleFilterEventColor (handleFilterEventColor S c) c) S
      ∧ (filterRun cmds initialFilterEventColor).Nodup := by
  refine ⟨?_, ?_, ?_, nodup_handleFilterEventColor S c hS, ?_,
    handleFilterEventColor_twice_perm S c hS, nodup_filterRun cmds _ List.nodup_nil⟩
  · rw [mem_handleFilterEventColor]
    constructor
    · rintro (⟨_, hne⟩ | ⟨_, hn⟩)
      · exact absurd rfl hne
      · exact hn
    · intro hn
      exact Or.inr ⟨rfl, hn⟩
  · intro x hx
    rw [mem_handleFilterEventColor]
    constructor
    · rintro (⟨hm, _⟩ | ⟨he, _⟩)
      · exact hm
      · exact absurd he hx
    · intro hm
      exact Or.inl ⟨hm, hx⟩
  · by_cases h : c ∈ S
    · rw [handleFilterEventColor_of_mem S c h, List.filter_filter]
      congr 1
      funext x
      simp
    · rw [handleFilterEventColor_of_not_mem S c h]
      simp [List.filter_append]
  · intro x
    exact (handleFilterEventColor_twice_perm S c hS).mem_iff

/-- Witness of C12: toggling `#1890FF` in the selection
`[#00AB55, #1890FF, #54D62C]` removes it and keeps the other two in order. -/
theorem handleFilterEventColor_toggle_witness :
    (["#00AB55", "#1890FF", "#54D62C"] : List String).Nodup
      ∧ handleFilterEventColor ["#00AB55", "#1890FF", "#54D62C"] "#1890FF"
          = ["#00AB55", "#54D62C"]
      ∧ (handleFilterEventColor ["#00AB55", "#1890FF", "#54D62C"] "#1890FF").Nodup
      ∧ ("#1890FF" ∈ handleFilterEventColor ["#00AB55", "#1890FF", "#54D62C"] "#1890FF" ↔
          "#1890FF" ∉ ["#00AB55", "#1890FF", "#54D62C"]) :=
  ⟨by decide, by decide,
   (handleFilterEventColor_toggle ["#00AB55", "#1890FF", "#54D62C"] "#1890FF" (by decide)
      [FilterCommand.toggle "#00AB55", FilterCommand.reset]).2.2.2.1,
   (handleFilterEventColor_toggle ["#00AB55", "#1890FF", "#54D62C"] "#1890FF" (by decide)
      [FilterCommand.toggle "#00AB55", FilterCommand.reset]).1⟩

end CalendarPage
